import Mathlib

/-!
Shallow embedding of the password-strength evaluator in `src/app.py`
(`calculate_entropy` and `validate_password`), together with theorems
settling the specification claims about it.

Modelling conventions:

* Python regex character classes `[a-z]`, `[A-Z]`, `\d`, the special-character
  class and `\s` are modelled at the ASCII level, matching the spec's input
  contract ("the rule set only recognizes ASCII letter/digit/special classes").
  The program itself is wider: Python 3 `re` on `str` lets `\d` match every
  Unicode decimal digit (e.g. U+0660), `\s` match non-ASCII whitespace,
  `str.isdigit()` match Unicode digits, and `str.lower()` apply full-Unicode
  case mapping.  The embedding therefore agrees with the program exactly on
  passwords of ASCII characters (`allAscii` below); statements whose truth
  could be flipped by the wider Unicode leaves are stated on that fragment,
  and the divergence itself is surfaced where a claim turns on it (the
  entropy-zero iff, and the shape of the class-diversity amendment).
* Python floats (`math.log2`) are modelled by real numbers.  The three float
  comparisons of rule 15 (`entropy < 50`, `entropy >= 80`, `entropy >= 60`)
  are embedded as the exact natural-number comparisons
  `charset ^ len < 2 ^ 50` etc.; the lemmas `entropy_lt_iff` and
  `le_entropy_iff` below prove these coincide with the real-valued
  comparisons on `calculate_entropy`.
* `validate_password("")` raises `IndexError` in the source (rule 12 evaluates
  `password[0]` with no emptiness guard); the embedding returns an
  `Option Verdict`, with `none` for the raising run.
* The f-string interpolation of the rounded entropy value into the rule-15
  error message is elided (the message is modelled as a fixed string); no
  claim depends on the interpolated digits.
-/

namespace PasswordCheck

/-- The 32-character special set of the regex class used in rules 6, 7, 14
and in `calculate_entropy`. -/
def specialChars : String := "!@#$%^&*(),.?\":\x7b\x7d|<>_-+=[]\\;\x27/\x60~"

/-- Regex class `[a-z]` on one character. -/
def isLowerA (c : Char) : Bool := decide ( 'a' ≤ c ∧ c ≤ 'z')

/-- Regex class `[A-Z]` on one character. -/
def isUpperA (c : Char) : Bool := decide ( 'A' ≤ c ∧ c ≤ 'Z')

/-- Regex class `\d` on one character, restricted to ASCII digits.  Python's
`\d` on `str` additionally matches every Unicode decimal digit (category Nd,
e.g. U+0660); the model is exact only on ASCII input. -/
def isDigitA (c : Char) : Bool := decide ( '0' ≤ c ∧ c ≤ '9')

/-- Membership in the special-character class. -/
def isSpecialA (c : Char) : Bool := specialChars.data.contains c

/-- Regex class `\s` on one character, restricted to ASCII whitespace.
Python's `\s` additionally matches non-ASCII whitespace (e.g. U+00A0,
U+0085); the model is exact only on ASCII input. -/
def isSpaceA (c : Char) : Bool :=
  c == ' ' || c == '\t' || c == '\n' || c == '\r' || c == '\x0b' || c == '\x0c'

/-- The password length `len(password)` (number of characters). -/
def pwLength (p : String) : Nat := p.data.length

/-- Does `re.search(r"[a-z]", password)` match? -/
def hasLower (p : String) : Bool := p.data.any isLowerA

/-- Does `re.search(r"[A-Z]", password)` match? -/
def hasUpper (p : String) : Bool := p.data.any isUpperA

/-- Does `re.search(r"\d", password)` match? -/
def hasDigit (p : String) : Bool := p.data.any isDigitA

/-- Does the special-character regex match? -/
def hasSpecial (p : String) : Bool := p.data.any isSpecialA

/-- Does `re.search(r"\s", password)` match? -/
def hasWhitespace (p : String) : Bool := p.data.any isSpaceA

/-- Number of special characters, `len(re.findall(special_pattern, password))`. -/
def specialCount (p : String) : Nat := p.data.countP isSpecialA

/-- The characters of `password.lower()`.  `Char.toLower` is the ASCII case
mapping, while Python's `str.lower()` is full-Unicode (e.g. U+212A lowers to
a plain `k`); the model is exact only on ASCII input. -/
def lowerData (p : String) : List Char := p.data.map Char.toLower

/-- The fragment of inputs on which every leaf predicate of the embedding
(`isLowerA`, `isUpperA`, `isDigitA`, `isSpecialA`, `isSpaceA`, `Char.toLower`
and the rule-12 digit test) agrees exactly with the Python program: passwords
made of ASCII characters. -/
def allAscii (p : String) : Bool := p.data.all fun c => decide (c.toNat < 128)

/-- The `COMMON_PASSWORDS` blacklist of `src/app.py`. -/
def COMMON_PASSWORDS : List String :=
  [ "password", "password1", "123456", "12345678", "qwerty", "abc123",
    "monkey", "1234567", "letmein", "trustno1", "dragon", "baseball",
    "iloveyou", "master", "sunshine", "ashley", "bailey", "passw0rd",
    "shadow", "123123", "654321", "superman", "qazwsx", "michael",
    "football", "password123", "admin", "welcome", "login", "hello",
    "charlie", "donald", "password2", "qwerty123", "123qwe" ]

/-- The `KEYBOARD_WALKS` pattern list of `src/app.py`. -/
def KEYBOARD_WALKS : List String :=
  [ "qwerty", "asdfgh", "zxcvbn", "qwertyu", "asdfghj", "zxcvbnm",
    "1234567", "abcdefg", "7654321", "gfedcba", "aaaaaaa", "1111111" ]

/-- Does `needle` occur at the head of `hay`? (helper for substring search). -/
def startsWithSeg : List Char → List Char → Bool
  | [], _ => true
  | _ :: _, [] => false
  | a :: as, b :: bs => a == b && startsWithSeg as bs

/-- Python substring containment `needle in hay`, on character lists. -/
def containsSeg (needle : List Char) : List Char → Bool
  | [] => needle.isEmpty
  | b :: bs => startsWithSeg needle (b :: bs) || containsSeg needle bs

/-- Rule 9 regex `(.)\1{2,}`: some character other than a newline (which `.`
does not match) occurs at three or more consecutive positions. -/
def hasTripleRepeat : List Char → Bool
  | a :: b :: c :: rest =>
      (a != '\n' && a == b && b == c) || hasTripleRepeat (b :: c :: rest)
  | _ => false

/-- The inner `has_sequential(s, step)` of rule 10: three consecutive
characters whose code points advance by `step`. -/
def hasSequentialStep (step : Int) : List Char → Bool
  | a :: b :: c :: rest =>
      ((b.toNat : Int) - (a.toNat : Int) == step
          && (c.toNat : Int) - (b.toNat : Int) == step)
        || hasSequentialStep step (b :: c :: rest)
  | _ => false

/-- Rule 10 trigger: `has_sequential(password.lower())` or
`has_sequential(password, step=-1)`. -/
def seqHit (p : String) : Bool :=
  hasSequentialStep 1 (lowerData p) || hasSequentialStep (-1) p.data

/-- Rule 11 trigger: some keyboard walk, or its reverse, is a substring of the
lowercased password. -/
def walkHit (p : String) : Bool :=
  KEYBOARD_WALKS.any fun w =>
    containsSeg w.data (lowerData p) || containsSeg w.data.reverse (lowerData p)

/-- Rule 8 trigger: `password.lower() in COMMON_PASSWORDS`. -/
def isCommon (p : String) : Bool := COMMON_PASSWORDS.contains (String.mk (lowerData p))

/-- Rule 14's `classes` count: how many of the four character classes match. -/
def numClasses (p : String) : Nat :=
  (if hasLower p then 1 else 0) + (if hasUpper p then 1 else 0) +
    (if hasDigit p then 1 else 0) + (if hasSpecial p then 1 else 0)

/-- The `charset` accumulator of `calculate_entropy`. -/
def charsetSize (p : String) : Nat :=
  (if hasLower p then 26 else 0) + (if hasUpper p then 26 else 0) +
    (if hasDigit p then 10 else 0) + (if hasSpecial p then 32 else 0)

/-- The source's `calculate_entropy`: `0.0` when no class matches, otherwise
`len(password) * math.log2(charset)` (floats modelled as reals). -/
noncomputable def calculate_entropy (p : String) : ℝ :=
  if charsetSize p = 0 then 0
  else (pwLength p : ℝ) * Real.logb 2 (charsetSize p)

/-- Exact embedding of the float comparison `entropy >= k` of rule 15 for the
thresholds `k = 50, 60, 80`: equivalent to `2 ^ k ≤ charset ^ len`, see
`le_entropy_iff`. -/
def entropyAtLeast (k : Nat) (p : String) : Bool :=
  decide (2 ^ k ≤ charsetSize p ^ pwLength p)

/-- Rule 12 trigger: `password[0].isdigit() or password[-1].isdigit()`.  Only
evaluated on nonempty passwords (the source raises `IndexError` on the empty
string before reaching the digit test); the default character is irrelevant.
Python's `str.isdigit()` also matches Unicode digits and superscripts; the
ASCII test is exact only on ASCII input. -/
def edgeDigit (p : String) : Bool :=
  isDigitA (p.data.headD 'x') || isDigitA (p.data.getLastD 'x')

/-- Error message of rule 1. -/
def errShort : String := "Must be at least 12 characters long."

/-- Error message of rule 2. -/
def errLong : String := "Must not exceed 128 characters."

/-- Error message of rule 3. -/
def errUpper : String := "Must contain at least one uppercase letter (A–Z)."

/-- Error message of rule 4. -/
def errLower : String := "Must contain at least one lowercase letter (a–z)."

/-- Error message of rule 5. -/
def errDigit : String := "Must contain at least one digit (0–9)."

/-- Error message of rule 6. -/
def errSpecial : String := "Must contain at least one special character (!@#$%^&* etc.)."

/-- Error message of rule 8. -/
def errCommon : String := "Password is too common. Please choose a more unique password."

/-- Error message of rule 9. -/
def errRepeat : String :=
  "Must not contain 3 or more repeated consecutive characters (e.g. \x27aaa\x27, \x27111\x27)."

/-- Error message of rule 13. -/
def errWhitespace : String := "Must not contain whitespace characters."

/-- Error message of rule 14. -/
def errClasses : String := "Must use at least 3 different character classes."

/-- Error message of rule 15 (the interpolated entropy figure is elided). -/
def errEntropy : String := "Password entropy too low. Add more variety."

/-- Warning message of rule 10. -/
def warnSeq : String := "Avoid sequential characters (e.g. \x27abc\x27, \x27123\x27, \x27cba\x27)."

/-- Warning message of rule 11. -/
def warnWalk : String := "Avoid keyboard walk patterns (e.g. \x27qwerty\x27, \x27asdf\x27)."

/-- Warning message of rule 12. -/
def warnEdge : String := "Avoid starting or ending with a digit for better strength."

/-- Strength label for invalid or low-scoring passwords. -/
def labelWeak : String := "Weak ❌"

/-- Strength label for score 85 and above. -/
def labelVeryStrong : String := "Very Strong 💪"

/-- Strength label for score 65 to 84. -/
def labelStrong : String := "Strong ✅"

/-- Strength label for score 45 to 64. -/
def labelModerate : String := "Moderate ⚠️"

/-- The `errors` list accumulated by `validate_password`, in source order:
rules 1, 2, 3, 4, 5, 6, 8, 9, 13, 14, 15. -/
def errorsList (p : String) : List String :=
  (if pwLength p < 12 then [errShort] else []) ++
  (if 128 < pwLength p then [errLong] else []) ++
  (if !hasUpper p then [errUpper] else []) ++
  (if !hasLower p then [errLower] else []) ++
  (if !hasDigit p then [errDigit] else []) ++
  (if !hasSpecial p then [errSpecial] else []) ++
  (if isCommon p then [errCommon] else []) ++
  (if hasTripleRepeat p.data then [errRepeat] else []) ++
  (if hasWhitespace p then [errWhitespace] else []) ++
  (if numClasses p = 1 then [errClasses] else []) ++
  (if !entropyAtLeast 50 p then [errEntropy] else [])

/-- The `warnings` list accumulated by `validate_password`, in source order:
rules 10, 11, 12.  Rule 11 appends once and breaks, so a single entry appears
however many walk patterns match. -/
def warningsList (p : String) : List String :=
  (if seqHit p then [warnSeq] else []) ++
  (if walkHit p then [warnWalk] else []) ++
  (if edgeDigit p then [warnEdge] else [])

/-- Score contribution of rule 1: nothing on error, `+20` for length at least
16, else `+10`. -/
def lengthScore (p : String) : Int :=
  if pwLength p < 12 then 0 else if 16 ≤ pwLength p then 20 else 10

/-- Score contribution of rule 3. -/
def upperScore (p : String) : Int := if hasUpper p then 10 else 0

/-- Score contribution of rule 4. -/
def lowerScore (p : String) : Int := if hasLower p then 10 else 0

/-- Score contribution of rule 5. -/
def digitScore (p : String) : Int := if hasDigit p then 10 else 0

/-- Score contribution of rule 6. -/
def specialScore (p : String) : Int := if hasSpecial p then 15 else 0

/-- Score contribution of rule 7. -/
def multiSpecialScore (p : String) : Int := if 2 ≤ specialCount p then 5 else 0

/-- Score contribution of rule 9 (a bonus when no triple repeat occurs). -/
def repeatScore (p : String) : Int := if hasTripleRepeat p.data then 0 else 5

/-- Running score after the purely additive rules 1 through 9. -/
def baseScore (p : String) : Int :=
  lengthScore p + upperScore p + lowerScore p + digitScore p + specialScore p +
    multiSpecialScore p + repeatScore p

/-- Running score after rule 10's `score = max(0, score - 5)` deduction. -/
def afterSeqScore (p : String) : Int :=
  if seqHit p then max 0 (baseScore p - 5) else baseScore p

/-- Running score after rule 11's `score = max(0, score - 10)` deduction,
applied at most once thanks to the `break`. -/
def afterWalkScore (p : String) : Int :=
  if walkHit p then max 0 (afterSeqScore p - 10) else afterSeqScore p

/-- Score contribution of rule 15: nothing on the low-entropy error, `+25`
from 80 bits, `+15` from 60 bits, `+5` otherwise. -/
def entropyScore (p : String) : Int :=
  if !entropyAtLeast 50 p then 0
  else if entropyAtLeast 80 p then 25
  else if entropyAtLeast 60 p then 15
  else 5

/-- The score after all fifteen rules, before the final clamp. -/
def rawScore (p : String) : Int := afterWalkScore p + entropyScore p

/-- The source's final `score = min(100, max(0, score))`. -/
def finalScore (p : String) : Int := min 100 (max 0 (rawScore p))

/-- The strength label selection of `validate_password`. -/
def strengthLabel (errors : List String) (score : Int) : String :=
  if !errors.isEmpty then labelWeak
  else if 85 ≤ score then labelVeryStrong
  else if 65 ≤ score then labelStrong
  else if 45 ≤ score then labelModerate
  else labelWeak

/-- The result record of `validate_password` (the displayed `entropy` field,
a rounding of `calculate_entropy`, is kept separate to keep the record
computable). -/
structure Verdict where
  valid : Bool
  score : Int
  strength : String
  errors : List String
  warnings : List String
deriving DecidableEq, Repr

/-- The record built by a completed run of `validate_password`. -/
def mkVerdict (p : String) : Verdict :=
  { valid := (errorsList p).isEmpty
    score := finalScore p
    strength := strengthLabel (errorsList p) (finalScore p)
    errors := errorsList p
    warnings := warningsList p }

/-- The source's `validate_password`.  On the empty string the source raises
`IndexError` at rule 12 (`password[0]`), modelled by `none`; every other input
completes and returns the record. -/
def validate_password (p : String) : Option Verdict :=
  if p.data.isEmpty then none else some (mkVerdict p)

/-! Helper lemmas about the embedding. -/

/-- A completed run returns exactly the record `mkVerdict p`. -/
theorem validate_some {p : String} {v : Verdict}
    (h : validate_password p = some v) : v = mkVerdict p := by
  unfold validate_password at h
  split at h
  · exact absurd h (by simp)
  · exact (Option.some.inj h).symm

/-- Membership in a conditional singleton. -/
theorem mem_ite_single {c : Prop} [Decidable c] {a b : String} :
    (a ∈ if c then [b] else []) ↔ c ∧ a = b := by
  split <;> simp_all

/-- Emptiness of a conditional singleton. -/
theorem ite_single_eq_nil {c : Prop} [Decidable c] {m : String} :
    ((if c then [m] else []) = []) ↔ ¬ c := by
  split <;> simp_all

theorem lengthScore_nonneg (p : String) : 0 ≤ lengthScore p := by
  unfold lengthScore; split_ifs <;> omega

theorem upperScore_nonneg (p : String) : 0 ≤ upperScore p := by
  unfold upperScore; split_ifs <;> omega

theorem lowerScore_nonneg (p : String) : 0 ≤ lowerScore p := by
  unfold lowerScore; split_ifs <;> omega

theorem digitScore_nonneg (p : String) : 0 ≤ digitScore p := by
  unfold digitScore; split_ifs <;> omega

theorem specialScore_nonneg (p : String) : 0 ≤ specialScore p := by
  unfold specialScore; split_ifs <;> omega

theorem multiSpecialScore_nonneg (p : String) : 0 ≤ multiSpecialScore p := by
  unfold multiSpecialScore; split_ifs <;> omega

theorem repeatScore_nonneg (p : String) : 0 ≤ repeatScore p := by
  unfold repeatScore; split_ifs <;> omega

theorem baseScore_nonneg (p : String) : 0 ≤ baseScore p := by
  have h1 := lengthScore_nonneg p
  have h2 := upperScore_nonneg p
  have h3 := lowerScore_nonneg p
  have h4 := digitScore_nonneg p
  have h5 := specialScore_nonneg p
  have h6 := multiSpecialScore_nonneg p
  have h7 := repeatScore_nonneg p
  unfold baseScore
  omega

/-- The running total is still nonnegative right after rule 10's floored
deduction. -/
theorem afterSeqScore_nonneg (p : String) : 0 ≤ afterSeqScore p := by
  have := baseScore_nonneg p
  unfold afterSeqScore
  split_ifs <;> omega

/-- The running total is still nonnegative right after rule 11's floored
deduction. -/
theorem afterWalkScore_nonneg (p : String) : 0 ≤ afterWalkScore p := by
  have := afterSeqScore_nonneg p
  unfold afterWalkScore
  split_ifs <;> omega

theorem entropyScore_nonneg (p : String) : 0 ≤ entropyScore p := by
  unfold entropyScore; split_ifs <;> omega

theorem rawScore_nonneg (p : String) : 0 ≤ rawScore p := by
  have h1 := afterWalkScore_nonneg p
  have h2 := entropyScore_nonneg p
  unfold rawScore
  omega

/-- Correctness of the prefix test behind `containsSeg`. -/
theorem startsWithSeg_iff (n : List Char) : ∀ h : List Char,
    (startsWithSeg n h = true ↔ ∃ r, h = n ++ r) := by
  induction n with
  | nil => intro h; simp [startsWithSeg]
  | cons a as ih =>
    intro h
    cases h with
    | nil => simp [startsWithSeg]
    | cons b bs =>
      simp only [startsWithSeg, Bool.and_eq_true, beq_iff_eq, ih,
        List.cons_append, List.cons.injEq]
      constructor
      · rintro ⟨hab, r, hr⟩
        exact ⟨r, hab.symm, hr⟩
      · rintro ⟨r, hba, hr⟩
        exact ⟨hba.symm, r, hr⟩

/-- Correctness of `containsSeg`: it decides occurrence as a contiguous
substring. -/
theorem containsSeg_iff (n : List Char) : ∀ h : List Char,
    (containsSeg n h = true ↔ ∃ l r, h = l ++ n ++ r) := by
  intro h
  induction h with
  | nil =>
    simp only [containsSeg]
    constructor
    · intro hn
      exact ⟨[], [], by simp [List.isEmpty_iff.mp hn]⟩
    · rintro ⟨l, r, hlr⟩
      have h2 := hlr.symm
      simp only [List.append_eq_nil] at h2
      simp [h2.1.2, List.isEmpty_iff]
  | cons b bs ih =>
    simp only [containsSeg, Bool.or_eq_true, startsWithSeg_iff, ih]
    constructor
    · rintro (⟨r, hr⟩ | ⟨l, r, hlr⟩)
      · exact ⟨[], r, by simp [hr]⟩
      · exact ⟨b :: l, r, by simp [hlr]⟩
    · rintro ⟨l, r, hlr⟩
      cases l with
      | nil => exact Or.inl ⟨r, by simpa using hlr⟩
      | cons x xs =>
        rw [List.cons_append, List.cons_append] at hlr
        obtain ⟨hb, hbs⟩ := List.cons.inj hlr
        exact Or.inr ⟨xs, r, hbs⟩

/-- A nonzero charset accumulator is at least 10. -/
theorem charsetSize_ge_ten {p : String} (h : charsetSize p ≠ 0) :
    10 ≤ charsetSize p := by
  unfold charsetSize at h ⊢
  split_ifs at h ⊢ <;> omega

/-- A password with a nonzero charset accumulator is nonempty. -/
theorem pwLength_pos {p : String} (h : charsetSize p ≠ 0) : 1 ≤ pwLength p := by
  by_contra hn
  push_neg at hn
  have hd : p.data = [] := by
    have h0 : p.data.length = 0 := by unfold pwLength at hn; omega
    exact List.length_eq_zero.mp h0
  exact h (by simp [charsetSize, hasLower, hasUpper, hasDigit, hasSpecial, hd])

/-- The charset accumulator vanishes exactly when no character class
matches. -/
theorem charsetSize_eq_zero_iff (p : String) :
    charsetSize p = 0 ↔
      (hasLower p = false ∧ hasUpper p = false ∧ hasDigit p = false ∧
        hasSpecial p = false) := by
  unfold charsetSize
  split_ifs <;> simp_all

/-- Bridge between the real-valued entropy comparison `k ≤ entropy` and the
natural-number comparison used in the embedding of rule 15. -/
theorem le_calculate_entropy_iff (p : String) (k : Nat) (hk : 1 ≤ k) :
    ((k : ℝ) ≤ calculate_entropy p ↔ 2 ^ k ≤ charsetSize p ^ pwLength p) := by
  unfold calculate_entropy
  split
  · rename_i h0
    rw [h0]
    constructor
    · intro hle
      have h1 : (1 : ℝ) ≤ (k : ℝ) := by exact_mod_cast hk
      linarith
    · intro hle
      exfalso
      rcases Nat.eq_zero_or_pos (pwLength p) with hn | hn
      · rw [hn, pow_zero] at hle
        have h2 : 1 < 2 ^ k := Nat.one_lt_two_pow_iff.mpr (by omega)
        omega
      · rw [Nat.zero_pow (by omega)] at hle
        have h2 : 0 < 2 ^ k := Nat.pos_pow_of_pos k (by omega)
        omega
  · rename_i h0
    have hc10 : 10 ≤ charsetSize p := charsetSize_ge_ten h0
    have hcpos : (0 : ℝ) < (charsetSize p : ℝ) := by
      exact_mod_cast (by omega : 0 < charsetSize p)
    have hcn : (0 : ℝ) < (charsetSize p : ℝ) ^ pwLength p := pow_pos hcpos _
    rw [← Real.logb_pow, Real.le_logb_iff_rpow_le one_lt_two hcn,
      Real.rpow_natCast]
    exact_mod_cast Iff.rfl

/-- Bridge between the real-valued entropy comparison `entropy < k` and the
natural-number comparison used in the embedding of rule 15. -/
theorem calculate_entropy_lt_iff (p : String) (k : Nat) (hk : 1 ≤ k) :
    (calculate_entropy p < (k : ℝ) ↔ charsetSize p ^ pwLength p < 2 ^ k) := by
  have h := le_calculate_entropy_iff p k hk
  constructor
  · intro hlt
    by_contra hc
    exact absurd (h.mpr (by omega)) (not_le.mpr hlt)
  · intro hlt
    by_contra hc
    exact absurd (h.mp (not_lt.mp hc)) (by omega)

/-- The boolean `entropyAtLeast` agrees with the real-valued comparison on
`calculate_entropy`, for the thresholds rule 15 uses. -/
theorem entropyAtLeast_iff (p : String) (k : Nat) (hk : 1 ≤ k) :
    (entropyAtLeast k p = true ↔ (k : ℝ) ≤ calculate_entropy p) := by
  unfold entropyAtLeast
  simp [le_calculate_entropy_iff p k hk]

/-- The entropy estimate vanishes exactly when the charset accumulator
does. -/
theorem calculate_entropy_eq_zero_iff (p : String) :
    calculate_entropy p = 0 ↔ charsetSize p = 0 := by
  unfold calculate_entropy
  split
  · rename_i h0; simp [h0]
  · rename_i h0
    constructor
    · intro he
      exfalso
      have hc10 : 10 ≤ charsetSize p := charsetSize_ge_ten h0
      have hn : 1 ≤ pwLength p := pwLength_pos h0
      have h1 : (1 : ℝ) < (charsetSize p : ℝ) := by
        exact_mod_cast (by omega : 1 < charsetSize p)
      have hpos : 0 < Real.logb 2 (charsetSize p) := Real.logb_pos one_lt_two h1
      have hnpos : (0 : ℝ) < (pwLength p : ℝ) := by exact_mod_cast hn
      have h2 := mul_pos hnpos hpos
      linarith
    · intro hc
      exact absurd hc h0

/-! Claim theorems. -/

/-- Claim C1: the claim states that `validate_password` returns a `Verdict`
without raising on every input, including the empty string.  The source
violates this: on the empty string, rule 12 evaluates `password[0]` with no
emptiness guard and raises `IndexError`, which the embedding renders as
`none`.  This theorem evaluates the code at the failing input. -/
theorem c1_empty_input_raises : validate_password "" = none := by rfl

/-- Claim C2: the claim states that evaluating `""` yields a failing verdict
with `score = 0` and a specific error list.  The source never returns a
verdict for `""` at all: the run raises `IndexError` at the edge-digit check,
rendered `none` by the embedding.  This theorem evaluates the code at the
failing input. -/
theorem c2_empty_scenario_unreachable : (validate_password "").isNone = true := by rfl

/-- Claim C3, counterexample: `"a1"` has exactly two of the four character
classes — fewer than 3, so the claim demands the class-diversity error — yet
the code (which tests `classes == 1`) does not emit it. -/
theorem c3_counterexample :
    numClasses "a1" < 3 ∧ validate_password "a1" = some (mkVerdict "a1") ∧
      errClasses ∉ (mkVerdict "a1").errors := by decide

/-- Claim C3, amended: for a password of ASCII characters — the fragment on
which the four class detectors embed the program's regexes exactly — the
class-diversity error is appended iff exactly one of the four character
classes is present (the source tests `classes == 1`, not `classes < 3`).  On
non-ASCII input the program's class count follows Python's Unicode `\d`, so
a lone Arabic-Indic digit is counted as one class and receives the error even
though none of the spec's ASCII classes is present; the ASCII hypothesis
keeps such inputs out of scope. -/
theorem c3_amended_diversity (p : String) (v : Verdict)
    (_hA : allAscii p = true) (h : validate_password p = some v) :
    errClasses ∈ v.errors ↔ numClasses p = 1 := by
  rw [validate_some h]
  have h1 : ¬ (errClasses = errShort) := by decide
  have h2 : ¬ (errClasses = errLong) := by decide
  have h3 : ¬ (errClasses = errUpper) := by decide
  have h4 : ¬ (errClasses = errLower) := by decide
  have h5 : ¬ (errClasses = errDigit) := by decide
  have h6 : ¬ (errClasses = errSpecial) := by decide
  have h7 : ¬ (errClasses = errCommon) := by decide
  have h8 : ¬ (errClasses = errRepeat) := by decide
  have h9 : ¬ (errClasses = errWhitespace) := by decide
  have h10 : ¬ (errClasses = errEntropy) := by decide
  simp only [mkVerdict]
  unfold errorsList
  simp [List.mem_append, mem_ite_single, h1, h2, h3, h4, h5, h6, h7, h8, h9, h10]

/-- Witness for the amended claim C3 at the concrete ASCII input `"aaaa"`,
which has exactly one character class and receives the diversity error. -/
theorem c3_amended_witness : errClasses ∈ (mkVerdict "aaaa").errors :=
  (c3_amended_diversity "aaaa" (mkVerdict "aaaa") (by decide) (by decide)).mpr
    (by decide)

/-- Claim C4: every verdict the code returns satisfies
`valid == (errors is empty)`. -/
theorem c4_valid_iff_no_errors (p : String) (v : Verdict)
    (h : validate_password p = some v) : v.valid = true ↔ v.errors = [] := by
  rw [validate_some h]
  simp [mkVerdict]

/-- Witness for claim C4 at the concrete input `"a"`. -/
theorem c4_witness : (mkVerdict "a").valid = true ↔ (mkVerdict "a").errors = [] :=
  c4_valid_iff_no_errors "a" (mkVerdict "a") (by decide)

/-- Claim C5: every returned score lies in `[0, 100]`, and the running total
is already nonnegative immediately after each of the two floored deductions
(rules 10 and 11), the only subtractions in the algorithm. -/
theorem c5_score_bounds (p : String) (v : Verdict)
    (h : validate_password p = some v) :
    (0 ≤ v.score ∧ v.score ≤ 100) ∧ 0 ≤ afterSeqScore p ∧ 0 ≤ afterWalkScore p := by
  rw [validate_some h]
  refine ⟨?_, afterSeqScore_nonneg p, afterWalkScore_nonneg p⟩
  simp only [mkVerdict]
  unfold finalScore
  omega

/-- Witness for claim C5 at the concrete input `"a"`. -/
theorem c5_witness :
    (0 ≤ (mkVerdict "a").score ∧ (mkVerdict "a").score ≤ 100) ∧
      0 ≤ afterSeqScore "a" ∧ 0 ≤ afterWalkScore "a" :=
  c5_score_bounds "a" (mkVerdict "a") (by decide)

/-- Claim C6: the claim's iff — entropy vanishes exactly when the password
holds no ASCII lowercase letter, uppercase letter, digit or listed special
character — is falsified by the program on non-ASCII input: Python's `\d`
matches every Unicode decimal digit, so a lone Arabic-Indic digit yields
`charset = 10` and entropy `log2(10) ≈ 3.32` while containing no ASCII-class
character.  On the fragment of ASCII passwords, where the class detectors
embed the program's regexes exactly, both halves of the claim do hold: the
estimate equals `length * log2(charsetSize)` (with `charsetSize` the weighted
class sum) and vanishes exactly when no class character is present. -/
theorem c6_entropy_ascii (p : String) (_hA : allAscii p = true) :
    calculate_entropy p = (pwLength p : ℝ) * Real.logb 2 (charsetSize p) ∧
      (calculate_entropy p = 0 ↔
        (hasLower p = false ∧ hasUpper p = false ∧ hasDigit p = false ∧
          hasSpecial p = false)) := by
  constructor
  · unfold calculate_entropy
    split
    · rename_i h0
      rw [h0]
      simp
    · rfl
  · rw [calculate_entropy_eq_zero_iff, charsetSize_eq_zero_iff]

/-- Witness for the ASCII fragment of claim C6 at the concrete input `"a"`. -/
theorem c6_witness :
    calculate_entropy "a" = (pwLength "a" : ℝ) * Real.logb 2 (charsetSize "a") ∧
      (calculate_entropy "a" = 0 ↔
        (hasLower "a" = false ∧ hasUpper "a" = false ∧ hasDigit "a" = false ∧
          hasSpecial "a" = false)) :=
  c6_entropy_ascii "a" (by decide)

/-- Claim C7: the strength label is Weak whenever errors are present, and
otherwise determined by the score thresholds 85, 65, 45. -/
theorem c7_strength_labels (p : String) (v : Verdict)
    (h : validate_password p = some v) :
    v.strength = if v.errors = [] then
        (if 85 ≤ v.score then labelVeryStrong
         else if 65 ≤ v.score then labelStrong
         else if 45 ≤ v.score then labelModerate
         else labelWeak)
      else labelWeak := by
  rw [validate_some h]
  simp only [mkVerdict]
  unfold strengthLabel
  by_cases he : errorsList p = [] <;> simp [he]

/-- Witness for claim C7 at the concrete input `"a"`. -/
theorem c7_witness :
    (mkVerdict "a").strength = if (mkVerdict "a").errors = [] then
        (if 85 ≤ (mkVerdict "a").score then labelVeryStrong
         else if 65 ≤ (mkVerdict "a").score then labelStrong
         else if 45 ≤ (mkVerdict "a").score then labelModerate
         else labelWeak)
      else labelWeak :=
  c7_strength_labels "a" (mkVerdict "a") (by decide)

/-- Claim C8: the keyboard-walk warning appears in the returned warnings
exactly when some entry of the fixed walk list, or its reverse, occurs as a
substring of the lowercased password; the warning appears at most once (the
count is 1 when the rule triggers, 0 otherwise), and the single floored
10-point deduction is applied exactly when the rule triggers. -/
theorem c8_keyboard_walks (p : String) (v : Verdict)
    (h : validate_password p = some v) :
    (warnWalk ∈ v.warnings ↔
        ∃ w ∈ KEYBOARD_WALKS,
          (∃ l r, lowerData p = l ++ w.data ++ r) ∨
            (∃ l r, lowerData p = l ++ w.data.reverse ++ r)) ∧
      List.count warnWalk v.warnings = (if walkHit p then 1 else 0) ∧
      afterWalkScore p =
        (if walkHit p then max 0 (afterSeqScore p - 10) else afterSeqScore p) := by
  rw [validate_some h]
  have h1 : ¬ (warnWalk = warnSeq) := by decide
  have h2 : ¬ (warnWalk = warnEdge) := by decide
  refine ⟨?_, ?_, rfl⟩
  · simp only [mkVerdict]
    unfold warningsList
    simp only [List.mem_append, mem_ite_single, h1, h2, and_false, false_or,
      or_false, and_true]
    unfold walkHit
    simp [List.any_eq_true, Bool.or_eq_true, containsSeg_iff]
  · simp only [mkVerdict]
    unfold warningsList
    by_cases hs : seqHit p <;> by_cases hw : walkHit p <;>
      by_cases he2 : edgeDigit p <;> simp [hs, hw, he2] <;> decide

/-- Witness for claim C8 at the concrete input `"qwerty"`. -/
theorem c8_witness :
    List.count warnWalk (mkVerdict "qwerty").warnings =
      (if walkHit "qwerty" then 1 else 0) :=
  (c8_keyboard_walks "qwerty" (mkVerdict "qwerty") (by decide)).2.1

/-- Claim C9: evaluation is deterministic — any two runs on the same password
produce the same verdict and the same entropy estimate (the embedding is a
pure function of the input string, with no state carried across calls). -/
theorem c9_deterministic (p : String) (r₁ r₂ : Option Verdict × ℝ)
    (h₁ : (validate_password p, calculate_entropy p) = r₁)
    (h₂ : (validate_password p, calculate_entropy p) = r₂) : r₁ = r₂ :=
  h₁.symm.trans h₂

/-- Witness for claim C9 at the concrete input `"a"`. -/
theorem c9_witness :
    (validate_password "a", calculate_entropy "a") =
      (validate_password "a", calculate_entropy "a") :=
  c9_deterministic "a" _ _ rfl rfl

/-- Claim C10: a verdict the code marks valid always carries a score of at
least 50, so a valid password is never labelled Weak: its label is Moderate,
Strong or Very Strong. -/
theorem c10_valid_implies_moderate (p : String) (v : Verdict)
    (h : validate_password p = some v) (hv : v.valid = true) :
    50 ≤ v.score ∧
      (v.strength = labelModerate ∨ v.strength = labelStrong ∨
        v.strength = labelVeryStrong) := by
  have hvm := validate_some h
  subst hvm
  have he : errorsList p = [] := by simpa [mkVerdict] using hv
  have he2 := he
  unfold errorsList at he2
  simp only [List.append_eq_nil, ite_single_eq_nil, Bool.not_eq_true',
    Bool.not_eq_false] at he2
  obtain ⟨⟨⟨⟨⟨⟨⟨⟨⟨⟨hlen, _hmax⟩, hup⟩, hlo⟩, hdig⟩, hsp⟩, _hcom⟩, hrep⟩,
    _hws⟩, _hcls⟩, hent⟩ := he2
  have hb1 : 10 ≤ lengthScore p := by unfold lengthScore; split_ifs <;> omega
  have hb2 : upperScore p = 10 := by simp [upperScore, hup]
  have hb3 : lowerScore p = 10 := by simp [lowerScore, hlo]
  have hb4 : digitScore p = 10 := by simp [digitScore, hdig]
  have hb5 : specialScore p = 15 := by simp [specialScore, hsp]
  have hb6 := multiSpecialScore_nonneg p
  have hb7 : repeatScore p = 5 := by simp [repeatScore, hrep]
  have hbase : 60 ≤ baseScore p := by unfold baseScore; omega
  have hseq : baseScore p - 5 ≤ afterSeqScore p := by
    unfold afterSeqScore; split_ifs <;> omega
  have hwalk : afterSeqScore p - 10 ≤ afterWalkScore p := by
    unfold afterWalkScore; split_ifs <;> omega
  have hent5 : 5 ≤ entropyScore p := by
    unfold entropyScore
    rw [hent]
    simp only [Bool.not_true, Bool.false_eq_true, if_false]
    split_ifs <;> omega
  have hraw : 50 ≤ rawScore p := by unfold rawScore; omega
  have hfin : 50 ≤ finalScore p := by unfold finalScore; omega
  refine ⟨by simpa [mkVerdict] using hfin, ?_⟩
  simp only [mkVerdict, he]
  unfold strengthLabel
  simp only [List.isEmpty_nil, Bool.not_true, Bool.false_eq_true, if_false]
  split_ifs with hA hB hC
  · right; right; rfl
  · right; left; rfl
  · left; rfl
  · exact absurd hfin (by omega)

/-- Witness for claim C10 at the concrete valid password
`"Tr0ub4dor&3XyZ"`. -/
theorem c10_witness :
    50 ≤ (mkVerdict "Tr0ub4dor&3XyZ").score ∧
      ((mkVerdict "Tr0ub4dor&3XyZ").strength = labelModerate ∨
        (mkVerdict "Tr0ub4dor&3XyZ").strength = labelStrong ∨
        (mkVerdict "Tr0ub4dor&3XyZ").strength = labelVeryStrong) :=
  c10_valid_implies_moderate "Tr0ub4dor&3XyZ" (mkVerdict "Tr0ub4dor&3XyZ")
    (by decide) (by decide)

end PasswordCheck
